import Mathlib

/-!
Verification of the ODBC performance-harness execution/statistics pipeline
(`src/tests/performance/drivers/odbc/app/`).

Conventions of the embedding:
* C++ `double` durations are modelled as exact rationals (`ℚ`); the claims
  under scrutiny are about ordering, selection and formatting of the values,
  not about binary floating-point rounding.
* ODBC calls into the external driver are modelled by oracles (functions from
  a call counter to the driver's answer); the harness code never inspects
  driver state in any other way.
* The filesystem is modelled as a partial map from path strings to file
  contents (for file writes), and as a set of existing paths (for the
  directory preparation of GET commands).
* `exit(1)` deep inside a call is modelled by an explicit outcome
  constructor, since the harness performs no recovery whatsoever.
-/

namespace PerfHarness

/-! ## SQL return codes (from `sql.h`, as used by the harness) -/

def SQL_SUCCESS : Int := 0

def SQL_SUCCESS_WITH_INFO : Int := 1

def SQL_NO_DATA : Int := 100

/-! ## Statistics (`common.h`, `calculate_stats`)

`calculate_stats` sorts a copy of the samples (`std::sort`; modelled by
`List.insertionSort`, any comparison sort computes the same list) and picks
median/min/max  exactly as the C++ does. -/

structure TimingStats where
  median : ℚ
  min : ℚ
  max : ℚ
deriving DecidableEq

def calculate_stats (values : List ℚ) : TimingStats :=
  if values.isEmpty then ⟨0, 0, 0⟩
  else
    let sorted := List.insertionSort (· ≤ ·) values
    let n := sorted.length
    let median :=
      if n % 2 = 0 then (sorted.getD (n / 2 - 1) 0 + sorted.getD (n / 2) 0) / 2
      else sorted.getD (n / 2) 0
    ⟨median, sorted.headD 0, sorted.getLastD 0⟩

theorem getLastD_indep {α : Type} (l : List α) (d d' : α) (h : l ≠ []) :
    l.getLastD d = l.getLastD d' := by
  cases l with
  | nil => exact absurd rfl h
  | cons a t => rw [List.getLastD_cons, List.getLastD_cons]

theorem sorted_le_getLastD {s : List ℚ} (hs : s.Sorted (· ≤ ·)) :
    ∀ x ∈ s, x ≤ s.getLastD 0 := by
  induction s with
  | nil => intro x hx; cases hx
  | cons a t ih =>
    intro x hx
    rcases List.mem_cons.mp hx with rfl | hxt
    · cases t with
      | nil => simp
      | cons b t' =>
        have hab : x ≤ b := List.rel_of_sorted_cons hs b (by simp)
        have hb : b ≤ (b :: t').getLastD 0 :=
          ih hs.of_cons b (by simp)
        have hrw : (x :: b :: t').getLastD 0 = (b :: t').getLastD 0 := by
          rw [List.getLastD_cons]
          exact getLastD_indep (b :: t') x 0 (by simp)
        rw [hrw]
        exact le_trans hab hb
    · have ht : t ≠ [] := List.ne_nil_of_mem hxt
      have := ih hs.of_cons x hxt
      have hrw : (a :: t).getLastD 0 = t.getLastD 0 := by
        rw [List.getLastD_cons]
        exact getLastD_indep t a 0 ht
      rw [hrw]
      exact this

theorem getLastD_mem {s : List ℚ} (h : s ≠ []) : s.getLastD 0 ∈ s := by
  cases s with
  | nil => exact absurd rfl h
  | cons a t =>
    clear h
    induction t generalizing a with
    | nil => simp
    | cons b t' ih =>
      rw [List.getLastD_cons]
      have hmem := ih b
      rw [getLastD_indep (b :: t') a 0 (by simp)]
      exact List.mem_cons_of_mem a hmem

/-- C1: `calculate_stats` returns the all-zero stats on the empty sequence; on
a non-empty sequence, `min` is the least element, `max` the greatest element,
and `median` is the middle value of the sorted sequence for odd length, and
the average of the two central values of the sorted sequence for even
length. -/
theorem calculate_stats_correct (values : List ℚ) :
    (values = [] → calculate_stats values = ⟨0, 0, 0⟩) ∧
    (values ≠ [] →
      ((calculate_stats values).min ∈ values ∧
        ∀ x ∈ values, (calculate_stats values).min ≤ x) ∧
      ((calculate_stats values).max ∈ values ∧
        ∀ x ∈ values, x ≤ (calculate_stats values).max) ∧
      (∀ s : List ℚ, s.Perm values → s.Sorted (· ≤ ·) →
        (calculate_stats values).median =
          if s.length % 2 = 1 then s.getD (s.length / 2) 0
          else (s.getD (s.length / 2 - 1) 0 + s.getD (s.length / 2) 0) / 2)) := by
  constructor
  · rintro rfl; rfl
  · intro hne
    have hemp : values.isEmpty = false := by
      simpa [List.isEmpty_iff] using hne
    set s0 := List.insertionSort (· ≤ ·) values with hs0
    have hperm : s0.Perm values := List.perm_insertionSort _ _
    have hsort : s0.Sorted (· ≤ ·) := List.sorted_insertionSort _ _
    have hs0ne : s0 ≠ [] := by
      intro h
      exact hne (List.Perm.eq_nil (h ▸ hperm).symm)
    have hcs : calculate_stats values =
        ⟨if s0.length % 2 = 0 then (s0.getD (s0.length / 2 - 1) 0 + s0.getD (s0.length / 2) 0) / 2
          else s0.getD (s0.length / 2) 0,
          s0.headD 0, s0.getLastD 0⟩ := by
      rw [calculate_stats, hemp]
      simp only [Bool.false_eq_true, if_false]
    refine ⟨⟨?_, ?_⟩, ⟨?_, ?_⟩, ?_⟩
    · rw [hcs]
      rcases List.exists_cons_of_ne_nil hs0ne with ⟨a, t, hat⟩
      have : s0.headD 0 ∈ s0 := by rw [hat]; simp
      exact hperm.mem_iff.mp this
    · intro x hx
      rw [hcs]
      rcases List.exists_cons_of_ne_nil hs0ne with ⟨a, t, hat⟩
      have hxs0 : x ∈ s0 := hperm.mem_iff.mpr hx
      rw [hat] at hxs0 ⊢
      simp only [List.headD]
      rcases List.mem_cons.mp hxs0 with rfl | hxt
      · exact le_refl x
      · exact List.rel_of_sorted_cons (hat ▸ hsort) x hxt
    · rw [hcs]
      exact hperm.mem_iff.mp (getLastD_mem hs0ne)
    · intro x hx
      rw [hcs]
      exact sorted_le_getLastD hsort x (hperm.mem_iff.mpr hx)
    · intro s hsp hss
      have hse : s = s0 :=
        List.eq_of_perm_of_sorted (hsp.trans hperm.symm) hss hsort
      subst hse
      rw [hcs]
      rcases Nat.mod_two_eq_zero_or_one s0.length with h2 | h2
      · rw [if_pos h2, if_neg (by omega)]
      · rw [if_neg (by omega), if_pos h2]

/-- Witness for C1 at the concrete sample list `[3, 1, 2]` whose sorted form
is `[1, 2, 3]` (odd length, median the middle value `2`). -/
theorem calculate_stats_correct_witness :
    (calculate_stats ([3, 1, 2] : List ℚ)).median = 2 := by
  have h := ((calculate_stats_correct [3, 1, 2]).2 (by decide)).2.2
    [1, 2, 3] (by decide) (by decide)
  simpa using h

/-! ## Query execution (`execution.cpp` / `query_execution.cpp`)

`run_query` allocates a statement, executes the SQL and fetches all rows;
everything it records besides the iteration index comes from the external
driver and the clock.  The driver session is modelled by an oracle
`drv : Nat → QueryOutcome` giving the observable outcome of the k-th
`run_query` call of the process, together with a call counter threaded
through the loops (the only session state the harness exposes). -/

structure QueryOutcome where
  timestamp : Int
  query_time_s : ℚ
  fetch_time_s : ℚ
  row_count : Nat

structure TestResult where
  iteration : Int
  timestamp : Int
  query_time_s : ℚ
  fetch_time_s : ℚ
  row_count : Nat
deriving DecidableEq

def run_query (drv : Nat → QueryOutcome) (call : Nat) (iteration : Int) : TestResult :=
  { iteration := iteration
    timestamp := (drv call).timestamp
    query_time_s := (drv call).query_time_s
    fetch_time_s := (drv call).fetch_time_s
    row_count := (drv call).row_count }

/-- Body of `run_warmup`'s loop `for (int i = 1; i <= warmup_iterations; i++)`:
the counted loop runs once per remaining iteration (`fuel`), each call's
result is discarded, and only the session call counter advances. -/
def warmupLoop (drv : Nat → QueryOutcome) (call : Nat) (i : Int) : Nat → Nat
  | 0 => call
  | Nat.succ fuel =>
      let _discarded := run_query drv call i
      warmupLoop drv (call + 1) (i + 1) fuel

def run_warmup (drv : Nat → QueryOutcome) (call : Nat) (warmup_iterations : Int) : Nat :=
  if warmup_iterations = 0 then call
  else warmupLoop drv call 1 warmup_iterations.toNat

/-- Body of `run_test_iterations`' loop `for (int i = 1; i <= iterations; i++)`,
which executes `iterations.toNat` times; each result is appended in call
order. -/
def iterLoop (drv : Nat → QueryOutcome) (call : Nat) (i : Int) : Nat → List TestResult
  | 0 => []
  | Nat.succ fuel => run_query drv call i :: iterLoop drv (call + 1) (i + 1) fuel

def run_test_iterations (drv : Nat → QueryOutcome) (call : Nat) (iterations : Int) :
    List TestResult :=
  iterLoop drv call 1 iterations.toNat

theorem warmupLoop_calls (drv : Nat → QueryOutcome) :
    ∀ (fuel : Nat) (call : Nat) (i : Int), warmupLoop drv call i fuel = call + fuel := by
  intro fuel
  induction fuel with
  | zero => intro call i; rfl
  | succ n ih =>
      intro call i
      show warmupLoop drv (call + 1) (i + 1) n = call + (n + 1)
      rw [ih]
      omega

theorem run_warmup_calls (drv : Nat → QueryOutcome) (call : Nat) (W : Int) :
    run_warmup drv call W = call + W.toNat := by
  rw [run_warmup]
  by_cases h : W = 0
  · subst h; simp
  · rw [if_neg h, warmupLoop_calls]

theorem iterLoop_spec (drv : Nat → QueryOutcome) :
    ∀ (fuel : Nat) (call : Nat) (i : Int),
      iterLoop drv call i fuel =
        (List.range fuel).map (fun k => run_query drv (call + k) (i + (k : Int))) := by
  intro fuel
  induction fuel with
  | zero => intro call i; rfl
  | succ n ih =>
      intro call i
      show run_query drv call i :: iterLoop drv (call + 1) (i + 1) n = _
      rw [ih, List.range_succ_eq_map]
      simp only [List.map_cons, List.map_map, Function.comp_def]
      refine congrArg₂ List.cons (by simp) ?_
      refine List.map_congr_left ?_
      intro k _
      have h1 : call + 1 + k = call + (k + 1) := by omega
      have h2 : i + 1 + (k : Int) = i + ((k + 1 : Nat) : Int) := by push_cast; ring
      rw [h1, h2]

/-- C2: with `W ≥ 0` warmup iterations and `N ≥ 0` measured iterations,
`run_warmup` consumes exactly `W` driver calls and returns no record, and
`run_test_iterations` returns exactly `N` records — the records of the `N`
driver calls made after the `W` warmup calls — whose iteration indices are
exactly `1..N` in call order, independent of `W`. -/
theorem warmup_then_iterations_spec (drv : Nat → QueryOutcome) (W N : Int)
    (hW : 0 ≤ W) (hN : 0 ≤ N) :
    run_warmup drv 0 W = W.toNat ∧
    (run_test_iterations drv (run_warmup drv 0 W) N).length = N.toNat ∧
    run_test_iterations drv (run_warmup drv 0 W) N =
      (List.range N.toNat).map (fun k => run_query drv (W.toNat + k) ((k : Int) + 1)) ∧
    (run_test_iterations drv (run_warmup drv 0 W) N).map (·.iteration) =
      (List.range N.toNat).map (fun k : Nat => (k : Int) + 1) := by
  have hw : run_warmup drv 0 W = W.toNat := by
    rw [run_warmup_calls]; omega
  have hit : run_test_iterations drv (run_warmup drv 0 W) N =
      (List.range N.toNat).map (fun k => run_query drv (W.toNat + k) ((k : Int) + 1)) := by
    rw [hw, run_test_iterations, iterLoop_spec]
    refine List.map_congr_left ?_
    intro k _
    rw [add_comm (1 : Int) (k : Int)]
  refine ⟨hw, ?_, hit, ?_⟩
  · rw [hit]; simp
  · rw [hit]
    simp only [List.map_map, Function.comp_def]
    rfl

/-- Witness for C2 at `W = 2`, `N = 3` and a constant driver oracle. -/
theorem warmup_then_iterations_spec_witness :
    (run_test_iterations (fun _ => ⟨0, 0, 0, 0⟩) (run_warmup (fun _ => ⟨0, 0, 0, 0⟩) 0 2) 3).map
        (·.iteration) =
      (List.range (3 : Int).toNat).map (fun k : Nat => (k : Int) + 1) :=
  (warmup_then_iterations_spec (fun _ => ⟨0, 0, 0, 0⟩) 2 3 (by decide) (by decide)).2.2.2

/-! ## Fixed-precision decimal formatting

Models `std::fixed << std::setprecision(prec)` applied to a duration: the
value is rounded to the nearest multiple of `10 ^ (-prec)`
(`scaled = ⌊q * 10 ^ prec + 1 / 2⌋`, computed on the exact rational) and then
printed as integer part, a dot and exactly `prec` zero-padded fraction
digits.  Half-way ties, which for the C++ double depend on the binary
representation, are taken upward here; no claim depends on tie behaviour. -/

def digitChar : Nat → Char
  | 0 => '0'
  | 1 => '1'
  | 2 => '2'
  | 3 => '3'
  | 4 => '4'
  | 5 => '5'
  | 6 => '6'
  | 7 => '7'
  | 8 => '8'
  | _ => '9'

def padDigits : Nat → Nat → List Char
  | 0, _ => []
  | w + 1, n => padDigits w (n / 10) ++ [digitChar (n % 10)]

def formatFixed (prec : Nat) (q : ℚ) : String :=
  let scaled : Int := Int.fdiv (2 * q.num * ((10 : Int) ^ prec) + (q.den : Int)) (2 * (q.den : Int))
  (if scaled < 0 then "-" else "") ++ toString (scaled.natAbs / 10 ^ prec) ++ "." ++
    String.mk (padDigits prec (scaled.natAbs % 10 ^ prec))

def isCDigit (c : Char) : Bool := decide (48 ≤ c.toNat ∧ c.toNat ≤ 57)

/-- A string of the shape `<prefix>.<exactly six digit characters>`. -/
def sixDecimalPlaces (s : String) : Prop :=
  ∃ a b : String, s = a ++ "." ++ b ∧ b.length = 6 ∧ ∀ c ∈ b.data, isCDigit c = true

theorem digitChar_isCDigit (m : Nat) : isCDigit (digitChar m) = true := by
  rcases m with _|_|_|_|_|_|_|_|_|k <;> rfl

theorem padDigits_length : ∀ (w n : Nat), (padDigits w n).length = w := by
  intro w
  induction w with
  | zero => intro n; rfl
  | succ v ih =>
      intro n
      show (padDigits v (n / 10) ++ [digitChar (n % 10)]).length = v + 1
      rw [List.length_append, ih]
      rfl

theorem padDigits_digits : ∀ (w n : Nat), ∀ c ∈ padDigits w n, isCDigit c = true := by
  intro w
  induction w with
  | zero => intro n c hc; cases hc
  | succ v ih =>
      intro n c hc
      rcases List.mem_append.mp hc with h | h
      · exact ih (n / 10) c h
      · rcases List.mem_singleton.mp h with rfl
        exact digitChar_isCDigit (n % 10)

theorem formatFixed_six_decimals (q : ℚ) : sixDecimalPlaces (formatFixed 6 q) := by
  refine ⟨(if Int.fdiv (2 * q.num * ((10 : Int) ^ 6) + (q.den : Int)) (2 * (q.den : Int)) < 0
      then "-" else "") ++
      toString ((Int.fdiv (2 * q.num * ((10 : Int) ^ 6) + (q.den : Int))
          (2 * (q.den : Int))).natAbs / 10 ^ 6),
    String.mk (padDigits 6 ((Int.fdiv (2 * q.num * ((10 : Int) ^ 6) + (q.den : Int))
        (2 * (q.den : Int))).natAbs % 10 ^ 6)), ?_, ?_, ?_⟩
  · rfl
  · show (padDigits 6 _).length = 6
    exact padDigits_length 6 _
  · intro c hc
    exact padDigits_digits 6 _ c hc

/-! ## Results persistence (`results.cpp`)

The filesystem is a partial map from paths to file contents; a successful
`std::ofstream` write replaces the file's contents wholesale. -/

def FS : Type := String → Option String

def FS.write (fs : FS) (path content : String) : FS :=
  fun p => if p = path then some content else fs p

def csv_row (r : TestResult) : String :=
  toString r.timestamp ++ "," ++ formatFixed 6 r.query_time_s ++ "," ++
    formatFixed 6 r.fetch_time_s ++ "\n"

def csv_rows : List TestResult → List String
  | [] => []
  | r :: rs => csv_row r :: csv_rows rs

def csv_content (results : List TestResult) : String :=
  "timestamp,query_s,fetch_s\n" ++ String.join (csv_rows results)

def write_csv_results (fs : FS) (results : List TestResult) (filename : String) : FS :=
  FS.write fs filename (csv_content results)

structure PutGetResult where
  iteration : Int
  timestamp : Int
  query_time_s : ℚ
deriving DecidableEq

def csv_row_put_get (r : PutGetResult) : String :=
  toString r.timestamp ++ "," ++ formatFixed 6 r.query_time_s ++ "\n"

def csv_rows_put_get : List PutGetResult → List String
  | [] => []
  | r :: rs => csv_row_put_get r :: csv_rows_put_get rs

def csv_content_put_get (results : List PutGetResult) : String :=
  "timestamp,query_s\n" ++ String.join (csv_rows_put_get results)

def write_csv_results_put_get (fs : FS) (results : List PutGetResult) (filename : String) : FS :=
  FS.write fs filename (csv_content_put_get results)

def generate_results_filename (test_name driver_type : String) (timestamp : Int) : String :=
  "/results/" ++ test_name ++ "_odbc_" ++ driver_type ++ "_" ++ toString timestamp ++ ".csv"

def generate_metadata_filename (driver_type : String) : String :=
  "/results/" ++ "run_metadata_odbc_" ++ driver_type ++ ".json"

/-- `print_statistics` of `execution.cpp`, modelled as the string it writes to
standard output; on an empty result list it returns before printing
anything. -/
def print_statistics (results : List TestResult) : String :=
  if results.isEmpty then ""
  else
    let query_times := results.map (·.query_time_s)
    let fetch_times := results.map (·.fetch_time_s)
    let qs := List.insertionSort (· ≤ ·) query_times
    let fsorted := List.insertionSort (· ≤ ·) fetch_times
    let query_median :=
      if qs.length % 2 = 0 then (qs.getD (qs.length / 2 - 1) 0 + qs.getD (qs.length / 2) 0) / 2
      else qs.getD (qs.length / 2) 0
    let fetch_median :=
      if fsorted.length % 2 = 0 then
        (fsorted.getD (fsorted.length / 2 - 1) 0 + fsorted.getD (fsorted.length / 2) 0) / 2
      else fsorted.getD (fsorted.length / 2) 0
    "\nSummary:\n" ++
      "  Query: median=" ++ formatFixed 3 query_median ++ "s  min=" ++
        formatFixed 3 (qs.headD 0) ++ "s  max=" ++ formatFixed 3 (qs.getLastD 0) ++ "s\n" ++
      "  Fetch: median=" ++ formatFixed 3 fetch_median ++ "s  min=" ++
        formatFixed 3 (fsorted.headD 0) ++ "s  max=" ++ formatFixed 3 (fsorted.getLastD 0) ++ "s\n"

theorem csv_rows_length : ∀ rs : List TestResult, (csv_rows rs).length = rs.length := by
  intro rs
  induction rs with
  | nil => rfl
  | cons r t ih =>
      show (csv_rows t).length + 1 = t.length + 1
      rw [ih]

theorem csv_rows_getD :
    ∀ (rs : List TestResult) (i : Nat), i < rs.length →
      (csv_rows rs).getD i "" = csv_row (rs.getD i ⟨0, 0, 0, 0, 0⟩) := by
  intro rs
  induction rs with
  | nil => intro i hi; cases hi
  | cons r t ih =>
      intro i hi
      cases i with
      | zero => rfl
      | succ j =>
          have hj : j < t.length := by simpa using hi
          simpa [csv_rows, List.getD] using ih j hj

theorem csv_rows_put_get_length :
    ∀ rs : List PutGetResult, (csv_rows_put_get rs).length = rs.length := by
  intro rs
  induction rs with
  | nil => rfl
  | cons r t ih =>
      show (csv_rows_put_get t).length + 1 = t.length + 1
      rw [ih]

theorem csv_rows_put_get_getD :
    ∀ (rs : List PutGetResult) (i : Nat), i < rs.length →
      (csv_rows_put_get rs).getD i "" = csv_row_put_get (rs.getD i ⟨0, 0, 0⟩) := by
  intro rs
  induction rs with
  | nil => intro i hi; cases hi
  | cons r t ih =>
      intro i hi
      cases i with
      | zero => rfl
      | succ j =>
          have hj : j < t.length := by simpa using hi
          simpa [csv_rows_put_get, List.getD] using ih j hj

/-- C5: a query-path CSV write stores, at the given path, the header line
`timestamp,query_s,fetch_s` followed by exactly one data row per result in
iteration order, each row rendering its durations with exactly six decimal
places; the put/get path writes header `timestamp,query_s` and one such row
per iteration; and the output path is the deterministic function
`/results/<test_name>_odbc_<driver_type>_<unix_timestamp>.csv` of test name,
driver type and timestamp. -/
theorem write_csv_results_spec (fs : FS) (results : List TestResult)
    (put_results : List PutGetResult) (filename : String)
    (test_name driver_type : String) (ts : Int) :
    (write_csv_results fs results filename) filename = some (csv_content results) ∧
    csv_content results = "timestamp,query_s,fetch_s\n" ++ String.join (csv_rows results) ∧
    (csv_rows results).length = results.length ∧
    (∀ i, i < results.length →
      (csv_rows results).getD i "" =
        toString ((results.getD i ⟨0, 0, 0, 0, 0⟩).timestamp) ++ "," ++
          formatFixed 6 ((results.getD i ⟨0, 0, 0, 0, 0⟩).query_time_s) ++ "," ++
          formatFixed 6 ((results.getD i ⟨0, 0, 0, 0, 0⟩).fetch_time_s) ++ "\n") ∧
    (∀ q : ℚ, sixDecimalPlaces (formatFixed 6 q)) ∧
    (write_csv_results_put_get fs put_results filename) filename =
      some (csv_content_put_get put_results) ∧
    csv_content_put_get put_results =
      "timestamp,query_s\n" ++ String.join (csv_rows_put_get put_results) ∧
    (csv_rows_put_get put_results).length = put_results.length ∧
    (∀ i, i < put_results.length →
      (csv_rows_put_get put_results).getD i "" =
        toString ((put_results.getD i ⟨0, 0, 0⟩).timestamp) ++ "," ++
          formatFixed 6 ((put_results.getD i ⟨0, 0, 0⟩).query_time_s) ++ "\n") ∧
    generate_results_filename test_name driver_type ts =
      "/results/" ++ test_name ++ "_odbc_" ++ driver_type ++ "_" ++ toString ts ++ ".csv" := by
  refine ⟨?_, rfl, csv_rows_length results, ?_, formatFixed_six_decimals, ?_, rfl,
    csv_rows_put_get_length put_results, ?_, rfl⟩
  · show (if filename = filename then _ else _) = _
    rw [if_pos rfl]
  · intro i hi
    exact csv_rows_getD results i hi
  · show (if filename = filename then _ else _) = _
    rw [if_pos rfl]
  · intro i hi
    exact csv_rows_put_get_getD put_results i hi

/-- The spec's concrete 3-iteration vector: query durations
`(0.010, 0.020, 0.030)` and fetch durations `(0.001, 0.002, 0.003)`. -/
def sampleResults : List TestResult :=
  [⟨1, 1700000000, 1/100, 1/1000, 10⟩,
   ⟨2, 1700000001, 2/100, 2/1000, 10⟩,
   ⟨3, 1700000002, 3/100, 3/1000, 10⟩]

/-- Witness for C5 at the spec's 3-iteration vector: the second data row is
the rendering of the second result. -/
theorem write_csv_results_spec_witness :
    (csv_rows sampleResults).getD 1 "" =
      toString ((sampleResults.getD 1 ⟨0, 0, 0, 0, 0⟩).timestamp) ++ "," ++
        formatFixed 6 ((sampleResults.getD 1 ⟨0, 0, 0, 0, 0⟩).query_time_s) ++ "," ++
        formatFixed 6 ((sampleResults.getD 1 ⟨0, 0, 0, 0, 0⟩).fetch_time_s) ++ "\n" :=
  (write_csv_results_spec (fun _ => none) sampleResults [] "/results/q1_odbc_old_1700000000.csv"
    "q1" "old" 1700000000).2.2.2.1 1 (by decide)

/-! ## Run metadata (`results.cpp`, `write_run_metadata_json`)

`get_architecture` wraps the `uname` machine string (absent on syscall
failure); `get_os_version` and the Rust toolchain version come from the
process environment, modelled as a partial map. -/

def get_architecture (machine : Option String) : String :=
  match machine with
  | some m =>
      if m = "amd64" ∨ m = "x86_64" then "x86_64"
      else if m = "aarch64" then "arm64"
      else m
  | none => "unknown"

def get_os_version (env : String → Option String) : String :=
  (env "OS_INFO").getD "Linux"

def metadata_content (driver_type driver_version build_rust_version server_version
    architecture os : String) (timestamp : Int) : String :=
  "\x7b\n" ++
  "  \"driver\": \"odbc\",\n" ++
  "  \"driver_type\": \"" ++ driver_type ++ "\",\n" ++
  "  \"driver_version\": \"" ++ driver_version ++ "\",\n" ++
  "  \"build_rust_version\": \"" ++ build_rust_version ++ "\",\n" ++
  "  \"runtime_language_version\": \"NA\",\n" ++
  "  \"server_version\": \"" ++ server_version ++ "\",\n" ++
  "  \"architecture\": \"" ++ architecture ++ "\",\n" ++
  "  \"os\": \"" ++ os ++ "\",\n" ++
  "  \"run_timestamp\": " ++ toString timestamp ++ "\n" ++
  "\x7d\n"

def write_run_metadata_json (fs : FS) (machine : Option String) (env : String → Option String)
    (driver_type driver_version server_version : String) (timestamp : Int)
    (filename : String) : FS :=
  match fs filename with
  | some _ => fs
  | none =>
      FS.write fs filename
        (metadata_content driver_type driver_version ((env "RUST_VERSION").getD "unknown")
          server_version (get_architecture machine) (get_os_version env) timestamp)

theorem generate_metadata_filename_inj (dt dt' : String)
    (h : generate_metadata_filename dt = generate_metadata_filename dt') : dt = dt' := by
  have h2 := congrArg String.data h
  simp only [generate_metadata_filename, String.data_append] at h2
  have h3 := List.append_cancel_right h2
  have h4 := List.append_cancel_left h3
  exact congrArg String.mk h4

/-- C3: `write_run_metadata_json` is a write-if-absent keyed on a path derived
from the driver type only: an existing file is left untouched (first writer
wins), a missing file is created with the run's metadata, a second run with
the same driver type never alters the file, and a different driver type
targets a distinct path, leaving the first file unchanged. -/
theorem write_run_metadata_json_spec (fs : FS) (machine : Option String)
    (env : String → Option String) (dt dv sv : String) (ts : Int) (dt' : String)
    (hdt : dt ≠ dt') :
    ((fs (generate_metadata_filename dt)).isSome →
      write_run_metadata_json fs machine env dt dv sv ts (generate_metadata_filename dt) = fs) ∧
    (fs (generate_metadata_filename dt) = none →
      (write_run_metadata_json fs machine env dt dv sv ts (generate_metadata_filename dt))
          (generate_metadata_filename dt) =
        some (metadata_content dt dv ((env "RUST_VERSION").getD "unknown") sv
          (get_architecture machine) (get_os_version env) ts)) ∧
    (∀ (machine2 : Option String) (env2 : String → Option String) (dv2 sv2 : String) (ts2 : Int),
      write_run_metadata_json
          (write_run_metadata_json fs machine env dt dv sv ts (generate_metadata_filename dt))
          machine2 env2 dt dv2 sv2 ts2 (generate_metadata_filename dt) =
        write_run_metadata_json fs machine env dt dv sv ts (generate_metadata_filename dt)) ∧
    generate_metadata_filename dt ≠ generate_metadata_filename dt' ∧
    (∀ (machine2 : Option String) (env2 : String → Option String) (dv2 sv2 : String) (ts2 : Int),
      (write_run_metadata_json fs machine2 env2 dt' dv2 sv2 ts2 (generate_metadata_filename dt'))
          (generate_metadata_filename dt) = fs (generate_metadata_filename dt)) := by
  have hne : generate_metadata_filename dt ≠ generate_metadata_filename dt' :=
    fun heq => hdt (generate_metadata_filename_inj dt dt' heq)
  refine ⟨?_, ?_, ?_, hne, ?_⟩
  · intro hsome
    cases hfs : fs (generate_metadata_filename dt) with
    | some c => simp [write_run_metadata_json, hfs]
    | none => rw [hfs] at hsome; cases hsome
  · intro hnone
    simp [write_run_metadata_json, hnone, FS.write]
  · intro machine2 env2 dv2 sv2 ts2
    cases hfs : fs (generate_metadata_filename dt) with
    | some c => simp [write_run_metadata_json, hfs]
    | none => simp [write_run_metadata_json, hfs, FS.write]
  · intro machine2 env2 dv2 sv2 ts2
    cases hfs : fs (generate_metadata_filename dt') with
    | some c => simp [write_run_metadata_json, hfs]
    | none => simp [write_run_metadata_json, hfs, FS.write, hne]

/-- Witness for C3: on an empty filesystem, a run with driver type `old`
creates the metadata file at its driver-type-derived path. -/
theorem write_run_metadata_json_spec_witness :
    (write_run_metadata_json (fun _ => none) (some "x86_64") (fun _ => none) "old" "3.5.0"
        "9.0.1" 1700000000 (generate_metadata_filename "old"))
        (generate_metadata_filename "old") =
      some (metadata_content "old" "3.5.0"
        (((fun _ => none : String → Option String) "RUST_VERSION").getD "unknown") "9.0.1"
        (get_architecture (some "x86_64")) (get_os_version (fun _ => none)) 1700000000) :=
  (write_run_metadata_json_spec (fun _ => none) (some "x86_64") (fun _ => none) "old" "3.5.0"
    "9.0.1" 1700000000 "new" (by decide)).2.1 rfl

/-- C10: an iteration count `N ≤ 0` (reachable since `PERF_ITERATIONS` is
parsed without range validation) makes `run_test_iterations` return the empty
sequence, `write_csv_results` write only the header line, and
`print_statistics` print nothing. -/
theorem nonpositive_iterations_spec (drv : Nat → QueryOutcome) (call : Nat) (N : Int)
    (hN : N ≤ 0) :
    run_test_iterations drv call N = [] ∧
    csv_content [] = "timestamp,query_s,fetch_s\n" ∧
    print_statistics [] = "" := by
  refine ⟨?_, by decide, rfl⟩
  rw [run_test_iterations, Int.toNat_of_nonpos hN]
  rfl

/-- Witness for C10 at `N = 0`. -/
theorem nonpositive_iterations_spec_witness :
    run_test_iterations (fun _ => ⟨0, 0, 0, 0⟩) 0 0 = [] ∧
    csv_content [] = "timestamp,query_s,fetch_s\n" ∧
    print_statistics [] = "" :=
  nonpositive_iterations_spec (fun _ => ⟨0, 0, 0, 0⟩) 0 0 (by decide)

/-! ## ODBC error checking (`connection.cpp`, `check_odbc_error`)

The driver's diagnostic area is an oracle from record number to the result of
`SQLGetDiagRec`.  The retrieval loop runs for as long as the driver keeps
answering with records, so the model takes a fuel bound; `none` means the
bound was hit before the driver signalled a stop. -/

inductive DiagResult where
  | record (state : String) (native : Int) (msg : String)
  | noData
  | fail (code : Int)
deriving DecidableEq

structure DiagRecord where
  rec_num : Nat
  state : String
  native : Int
  msg : String
deriving DecidableEq

inductive CheckOutcome where
  | ok
  | exited (code : Nat) (records : List DiagRecord)
deriving DecidableEq

/-- The diagnostic record the loop prints for record number `n`, assuming the
driver answered `SQL_SUCCESS`ish there. -/
def diagRecordAt (diag : Nat → DiagResult) (n : Nat) : DiagRecord :=
  match diag n with
  | .record st na ms => ⟨n, st, na, ms⟩
  | _ => ⟨n, "", 0, ""⟩

def collectDiags (diag : Nat → DiagResult) :
    Nat → Nat → List DiagRecord → Option (List DiagRecord)
  | 0, _, _ => none
  | fuel + 1, recNum, acc =>
      match diag recNum with
      | .record st na ms => collectDiags diag fuel (recNum + 1) (acc ++ [⟨recNum, st, na, ms⟩])
      | .noData => some acc
      | .fail _ => some acc

def check_odbc_error (ret : Int) (diag : Nat → DiagResult) (fuel : Nat) : Option CheckOutcome :=
  if ret ≠ SQL_SUCCESS ∧ ret ≠ SQL_SUCCESS_WITH_INFO then
    match collectDiags diag fuel 1 [] with
    | some records => some (.exited 1 records)
    | none => none
  else some .ok

theorem collectDiags_spec (diag : Nat → DiagResult) :
    ∀ (m fuel start : Nat) (acc : List DiagRecord),
      (∀ k, k < m → ∃ st na ms, diag (start + k) = DiagResult.record st na ms) →
      (diag (start + m) = DiagResult.noData ∨ ∃ c, diag (start + m) = DiagResult.fail c) →
      m < fuel →
      collectDiags diag fuel start acc =
        some (acc ++ (List.range m).map (fun k => diagRecordAt diag (start + k))) := by
  intro m
  induction m with
  | zero =>
      intro fuel start acc hsucc hstop hfuel
      cases fuel with
      | zero => omega
      | succ f =>
          rcases hstop with h | ⟨c, h⟩ <;>
            · rw [Nat.add_zero] at h
              simp [collectDiags, h]
  | succ n ih =>
      intro fuel start acc hsucc hstop hfuel
      cases fuel with
      | zero => omega
      | succ f =>
          obtain ⟨st, na, ms, hrec⟩ := hsucc 0 (Nat.succ_pos n)
          rw [Nat.add_zero] at hrec
          have hstep : collectDiags diag (f + 1) start acc =
              collectDiags diag f (start + 1) (acc ++ [⟨start, st, na, ms⟩]) := by
            simp [collectDiags, hrec]
          rw [hstep]
          have hsucc1 : ∀ k, k < n → ∃ st1 na1 ms1,
              diag (start + 1 + k) = DiagResult.record st1 na1 ms1 := by
            intro k hk
            obtain ⟨a, b, c, habc⟩ := hsucc (k + 1) (by omega)
            exact ⟨a, b, c, by rw [show start + 1 + k = start + (k + 1) by omega]; exact habc⟩
          have hstop1 : diag (start + 1 + n) = DiagResult.noData ∨
              ∃ c, diag (start + 1 + n) = DiagResult.fail c := by
            rw [show start + 1 + n = start + (n + 1) by omega]
            exact hstop
          rw [ih f (start + 1) (acc ++ [(⟨start, st, na, ms⟩ : DiagRecord)]) hsucc1 hstop1 (by omega)]
          have hhead : (⟨start, st, na, ms⟩ : DiagRecord) = diagRecordAt diag start := by
            simp [diagRecordAt, hrec]
          have hlist : (List.range (n + 1)).map (fun k => diagRecordAt diag (start + k)) =
              diagRecordAt diag start ::
                (List.range n).map (fun k => diagRecordAt diag (start + 1 + k)) := by
            rw [List.range_succ_eq_map]
            simp only [List.map_cons, List.map_map, Function.comp_def, Nat.add_zero,
              Nat.succ_eq_add_one]
            refine congrArg₂ List.cons rfl ?_
            refine List.map_congr_left ?_
            intro k _
            rw [show start + (k + 1) = start + 1 + k by omega]
          rw [hlist, ← hhead]
          simp [List.append_assoc]

/-- C4: for every return code other than `SQL_SUCCESS` and
`SQL_SUCCESS_WITH_INFO`, `check_odbc_error` enumerates diagnostic records
starting at record number 1 and incrementing by 1 until the driver answers
`SQL_NO_DATA` or a retrieval error, then exits the process with status 1; for
the two success codes it returns with no effect. -/
theorem check_odbc_error_spec (ret : Int) (diag : Nat → DiagResult) (m fuel : Nat)
    (hsucc : ∀ k, k < m → ∃ st na ms, diag (1 + k) = DiagResult.record st na ms)
    (hstop : diag (1 + m) = DiagResult.noData ∨ ∃ c, diag (1 + m) = DiagResult.fail c)
    (hfuel : m < fuel) :
    ((ret = SQL_SUCCESS ∨ ret = SQL_SUCCESS_WITH_INFO) →
      check_odbc_error ret diag fuel = some CheckOutcome.ok) ∧
    (¬(ret = SQL_SUCCESS ∨ ret = SQL_SUCCESS_WITH_INFO) →
      check_odbc_error ret diag fuel =
        some (CheckOutcome.exited 1
          ((List.range m).map (fun k => diagRecordAt diag (1 + k))))) ∧
    (List.range m).map (fun k => (diagRecordAt diag (1 + k)).rec_num) =
      (List.range m).map (fun k => 1 + k) := by
  refine ⟨?_, ?_, ?_⟩
  · intro h
    have hn : ¬(ret ≠ SQL_SUCCESS ∧ ret ≠ SQL_SUCCESS_WITH_INFO) := by tauto
    simp [check_odbc_error, hn]
  · intro h
    have hc : ret ≠ SQL_SUCCESS ∧ ret ≠ SQL_SUCCESS_WITH_INFO := not_or.mp h
    rw [check_odbc_error, if_pos hc, collectDiags_spec diag m fuel 1 [] hsucc hstop hfuel]
    rw [List.nil_append]
  · refine List.map_congr_left ?_
    intro k _
    rw [diagRecordAt]
    cases diag (1 + k) <;> rfl

/-- A driver answering one diagnostic record and then `SQL_NO_DATA`. -/
def sampleDiag : Nat → DiagResult :=
  fun n => if n = 1 then DiagResult.record "HY000" 5 "boom" else DiagResult.noData

/-- Witness for C4: on `SQL_ERROR` (`-1`) with one available record, the
process exits with status 1 after printing exactly that record. -/
theorem check_odbc_error_spec_witness :
    check_odbc_error (-1) sampleDiag 3 =
      some (CheckOutcome.exited 1
        ((List.range 1).map (fun k => diagRecordAt sampleDiag (1 + k)))) :=
  (check_odbc_error_spec (-1) sampleDiag 1 3
    (fun k hk => by
      have hk0 : k = 0 := by omega
      subst hk0
      exact ⟨"HY000", 5, "boom", rfl⟩)
    (Or.inl rfl) (by decide)).2.1 (by decide)

/-! ## Row counting in `run_query` (`execution.cpp` / `query_execution.cpp`)

The fetch loop is driven by the oracle `fetches`, the return code of the
j-th `SQLFetch` call on the statement.  `SQLFetch`'s return code carries no
row count, and the code inspects nothing else: in bulk mode it adds the
constant 1024 per successful call, in row-by-row mode it adds 1. -/

inductive FetchOutcome where
  | exited
  | completed (row_count : Nat)
deriving DecidableEq

def fetchLoop (fetches : Nat → Int) (inc : Nat) :
    Nat → Nat → Nat → Option FetchOutcome
  | 0, _, _ => none
  | fuel + 1, k, row_count =>
      let ret := fetches k
      if ret = SQL_NO_DATA then some (.completed row_count)
      else if ret = SQL_SUCCESS ∨ ret = SQL_SUCCESS_WITH_INFO then
        fetchLoop fetches inc fuel (k + 1) (row_count + inc)
      else some .exited

/-- The fetch section of `run_query`: the preceding `SQLAllocHandle`,
`SQLExecDirect` and (bulk only) `SQLSetStmtAttr` calls are each guarded by
`check_odbc_error`, which exits on non-success. -/
def run_query_fetch (allocRet execRet setAttrRet : Int) (fetches : Nat → Int)
    (use_bulk_fetch : Bool) (fuel : Nat) : Option FetchOutcome :=
  if ¬(allocRet = SQL_SUCCESS ∨ allocRet = SQL_SUCCESS_WITH_INFO) then some .exited
  else if ¬(execRet = SQL_SUCCESS ∨ execRet = SQL_SUCCESS_WITH_INFO) then some .exited
  else if use_bulk_fetch then
    if ¬(setAttrRet = SQL_SUCCESS ∨ setAttrRet = SQL_SUCCESS_WITH_INFO) then some .exited
    else fetchLoop fetches 1024 fuel 0 0
  else fetchLoop fetches 1 fuel 0 0

theorem fetchLoop_spec (fetches : Nat → Int) (inc : Nat) :
    ∀ (m fuel k0 count : Nat),
      (∀ j, j < m →
        fetches (k0 + j) = SQL_SUCCESS ∨ fetches (k0 + j) = SQL_SUCCESS_WITH_INFO) →
      fetches (k0 + m) = SQL_NO_DATA →
      m < fuel →
      fetchLoop fetches inc fuel k0 count = some (.completed (count + inc * m)) := by
  intro m
  induction m with
  | zero =>
      intro fuel k0 count hsucc hstop hfuel
      cases fuel with
      | zero => omega
      | succ f =>
          rw [Nat.add_zero] at hstop
          simp [fetchLoop, hstop]
  | succ n ih =>
      intro fuel k0 count hsucc hstop hfuel
      cases fuel with
      | zero => omega
      | succ f =>
          have h0 := hsucc 0 (Nat.succ_pos n)
          rw [Nat.add_zero] at h0
          have hno : fetches k0 ≠ SQL_NO_DATA := by
            rcases h0 with h | h <;> rw [h] <;> decide
          have hstep : fetchLoop fetches inc (f + 1) k0 count =
              fetchLoop fetches inc f (k0 + 1) (count + inc) := by
            simp only [fetchLoop]
            rw [if_neg hno, if_pos h0]
          rw [hstep]
          have hsucc1 : ∀ j, j < n →
              fetches (k0 + 1 + j) = SQL_SUCCESS ∨
                fetches (k0 + 1 + j) = SQL_SUCCESS_WITH_INFO := by
            intro j hj
            have := hsucc (j + 1) (by omega)
            rwa [show k0 + (j + 1) = k0 + 1 + j by omega] at this
          have hstop1 : fetches (k0 + 1 + n) = SQL_NO_DATA := by
            rwa [show k0 + (n + 1) = k0 + 1 + n by omega] at hstop
          rw [ih f (k0 + 1) (count + inc) hsucc1 hstop1 (by omega)]
          congr 2
          ring

/-- C8: with all driver calls before and during the fetch succeeding and the
`m`-th fetch call answering `SQL_NO_DATA`, bulk mode records a row count of
`1024 * m` — 1024 per successful fetch call, regardless of how many rows the
final partial batch actually held (the return codes carry no row count) —
while row-by-row mode records exactly `m`. -/
theorem run_query_row_count_spec (fetches : Nat → Int) (m fuel : Nat)
    (hsucc : ∀ j, j < m →
      fetches j = SQL_SUCCESS ∨ fetches j = SQL_SUCCESS_WITH_INFO)
    (hstop : fetches m = SQL_NO_DATA)
    (hfuel : m < fuel) :
    run_query_fetch SQL_SUCCESS SQL_SUCCESS SQL_SUCCESS fetches true fuel =
      some (FetchOutcome.completed (1024 * m)) ∧
    run_query_fetch SQL_SUCCESS SQL_SUCCESS SQL_SUCCESS fetches false fuel =
      some (FetchOutcome.completed m) := by
  have hsucc0 : ∀ j, j < m →
      fetches (0 + j) = SQL_SUCCESS ∨ fetches (0 + j) = SQL_SUCCESS_WITH_INFO := by
    intro j hj
    rw [Nat.zero_add]
    exact hsucc j hj
  have hstop0 : fetches (0 + m) = SQL_NO_DATA := by rwa [Nat.zero_add]
  constructor
  · rw [run_query_fetch, if_neg (by simp [SQL_SUCCESS]), if_neg (by simp [SQL_SUCCESS]),
      if_pos rfl, if_neg (by simp [SQL_SUCCESS]),
      fetchLoop_spec fetches 1024 m fuel 0 0 hsucc0 hstop0 hfuel, Nat.zero_add]
  · rw [run_query_fetch, if_neg (by simp [SQL_SUCCESS]), if_neg (by simp [SQL_SUCCESS])]
    rw [if_neg (by simp)]
    rw [fetchLoop_spec fetches 1 m fuel 0 0 hsucc0 hstop0 hfuel, Nat.zero_add, Nat.one_mul]

/-- Two successful fetch calls, then end of data. -/
def sampleFetches : Nat → Int := fun k => if k < 2 then 0 else 100

/-- Witness for C8: two successful bulk fetch calls record 2048 rows; two
row-by-row fetch calls record 2. -/
theorem run_query_row_count_spec_witness :
    run_query_fetch SQL_SUCCESS SQL_SUCCESS SQL_SUCCESS sampleFetches true 4 =
      some (FetchOutcome.completed (1024 * 2)) ∧
    run_query_fetch SQL_SUCCESS SQL_SUCCESS SQL_SUCCESS sampleFetches false 4 =
      some (FetchOutcome.completed 2) :=
  run_query_row_count_spec sampleFetches 2 4
    (fun j hj => Or.inl (if_pos hj)) (by decide) (by decide)

/-! ## Environment / configuration (`config.cpp`)

The process environment is a partial map from variable names to values.
`get_env_int` is `value ? std::atoi(value) : default_value`: the explicit
default is used only when the variable is absent; a present value goes
through C `atoi` (skip C whitespace, optional sign, leading digits, `0` when
no digits), with unbounded integers standing in for the C `int` (the code
performs no range validation). -/

def isCSpace (c : Char) : Bool :=
  decide (c.toNat = 32 ∨ c.toNat = 9 ∨ c.toNat = 10 ∨ c.toNat = 11 ∨ c.toNat = 12 ∨
    c.toNat = 13)

def atoiDigits : List Char → Int → Int
  | [], acc => acc
  | c :: rest, acc =>
      if isCDigit c then atoiDigits rest (acc * 10 + ((c.toNat - 48 : Nat) : Int)) else acc

def atoi (s : String) : Int :=
  match s.data.dropWhile isCSpace with
  | [] => 0
  | c :: rest =>
      if c = '-' then - atoiDigits rest 0
      else if c = '+' then atoiDigits rest 0
      else atoiDigits (c :: rest) 0

def get_env_int (env : String → Option String) (name : String) (default_value : Int) : Int :=
  match env name with
  | some v => atoi v
  | none => default_value

/-- The integer denoted by a string of decimal digits. -/
def decimalValue (ds : List Char) : Int :=
  ds.foldl (fun a c => a * 10 + ((c.toNat - 48 : Nat) : Int)) 0

theorem digit_not_space (c : Char) (h : isCDigit c = true) : isCSpace c = false := by
  obtain ⟨hl, hr⟩ := of_decide_eq_true h
  apply decide_eq_false
  omega

theorem atoiDigits_eq_foldl :
    ∀ (ds : List Char) (acc : Int), (∀ c ∈ ds, isCDigit c = true) →
      atoiDigits ds acc = ds.foldl (fun a c => a * 10 + ((c.toNat - 48 : Nat) : Int)) acc := by
  intro ds
  induction ds with
  | nil => intro acc h; rfl
  | cons c t ih =>
      intro acc h
      have hc : isCDigit c = true := h c (by simp)
      simp only [atoiDigits, hc, if_true, List.foldl_cons]
      exact ih _ (fun x hx => h x (by simp [hx]))

theorem atoi_digit_string (ds : List Char) (hne : ds ≠ [])
    (hd : ∀ c ∈ ds, isCDigit c = true) : atoi (String.mk ds) = decimalValue ds := by
  obtain ⟨c, t, rfl⟩ := List.exists_cons_of_ne_nil hne
  have hc : isCDigit c = true := hd c (by simp)
  have hns : isCSpace c = false := digit_not_space c hc
  have hminus : c ≠ '-' := by rintro rfl; exact absurd hc (by decide)
  have hplus : c ≠ '+' := by rintro rfl; exact absurd hc (by decide)
  show atoi (String.mk (c :: t)) = _
  simp only [atoi, List.dropWhile_cons, hns, Bool.false_eq_true, if_false, hminus, hplus]
  exact atoiDigits_eq_foldl (c :: t) 0 hd

theorem atoi_neg_digit_string (ds : List Char) (hd : ∀ c ∈ ds, isCDigit c = true) :
    atoi (String.mk ('-' :: ds)) = - decimalValue ds := by
  have hns : isCSpace '-' = false := by decide
  show atoi (String.mk ('-' :: ds)) = _
  simp only [atoi, List.dropWhile_cons, hns, Bool.false_eq_true, if_false, if_pos rfl]
  rw [atoiDigits_eq_foldl ds 0 hd]
  rfl

/-- C7 counterexample: with `PERF_ITERATIONS` present but non-numeric
(`"abc"`) and explicit default `1`, `get_env_int` returns `atoi`'s `0`, not
the default — contradicting the claim that the default is returned for a
present-but-non-numeric value. -/
theorem get_env_int_nonnumeric_counterexample :
    get_env_int (fun n => if n = "PERF_ITERATIONS" then some "abc" else none)
        "PERF_ITERATIONS" 1 = 0 ∧ (0 : Int) ≠ 1 := by
  constructor
  · decide
  · decide

/-- C7 amended: `get_env_int` returns the explicit default exactly when the
variable is absent; a present value is passed through C `atoi`, so a string
of decimal digits (optionally `-`-signed) yields its integer value with no
upper bound, while a non-numeric value yields `atoi`'s `0` — which coincides
with the default only when the default is `0` (as for
`PERF_WARMUP_ITERATIONS`), not in general (e.g. `PERF_ITERATIONS`'s default
is `1`). -/
theorem get_env_int_spec (env : String → Option String) (name : String) (d : Int) :
    (env name = none → get_env_int env name d = d) ∧
    (∀ v, env name = some v → get_env_int env name d = atoi v) ∧
    (∀ ds : List Char, ds ≠ [] → (∀ c ∈ ds, isCDigit c = true) →
      env name = some (String.mk ds) → get_env_int env name d = decimalValue ds) ∧
    (∀ ds : List Char, ds ≠ [] → (∀ c ∈ ds, isCDigit c = true) →
      env name = some (String.mk ('-' :: ds)) → get_env_int env name d = - decimalValue ds) := by
  refine ⟨?_, ?_, ?_, ?_⟩
  · intro h
    simp [get_env_int, h]
  · intro v h
    simp [get_env_int, h]
  · intro ds hne hd h
    simp only [get_env_int, h]
    exact atoi_digit_string ds hne hd
  · intro ds hne hd h
    simp only [get_env_int, h]
    exact atoi_neg_digit_string ds hd

/-- Witness for C7 (amended) at `PERF_ITERATIONS=42` with default `1`. -/
theorem get_env_int_spec_witness :
    get_env_int (fun n => if n = "PERF_ITERATIONS" then some "42" else none)
        "PERF_ITERATIONS" 1 = decimalValue ['4', '2'] :=
  (get_env_int_spec (fun n => if n = "PERF_ITERATIONS" then some "42" else none)
    "PERF_ITERATIONS" 1).2.2.1 ['4', '2'] (by decide) (by decide) (by decide)

/-! ## Connection-string construction (`connection.cpp`, `get_connection_string`)

`params` models the `std::map` returned by `parse_parameters_json` with its
`operator[]` defaulting to the empty string; `parse_parameters_json`
(`config.cpp`) extracts only account/host/user/database/schema/warehouse/role
and the private-key contents — it has no password or token key at all.
`driver_path` is the result of `get_driver_path`, and `key_file_path` the
temporary file written by `write_private_key_to_file`. -/

inductive ConnResult where
  | exited (code : Nat)
  | ok (conn_string : String)
deriving DecidableEq

def get_connection_string (driver_path key_file_path : String)
    (params : String → String) : ConnResult :=
  let account := params "account"
  let host := params "host"
  let user := params "user"
  let private_key := params "private_key"
  if account = "" ∨ user = "" ∨ private_key = "" then ConnResult.exited 1
  else
    ConnResult.ok
      ("DRIVER=" ++ driver_path ++ ";" ++ "SERVER=" ++ host ++ ";" ++
        "ACCOUNT=" ++ account ++ ";" ++ "UID=" ++ user ++ ";" ++
        "AUTHENTICATOR=SNOWFLAKE_JWT;" ++ "PRIV_KEY_FILE=" ++ key_file_path ++ ";" ++
        ((if params "database" = "" then "" else "DATABASE=" ++ params "database" ++ ";") ++
          (if params "schema" = "" then "" else "SCHEMA=" ++ params "schema" ++ ";") ++
          (if params "warehouse" = "" then "" else "WAREHOUSE=" ++ params "warehouse" ++ ";") ++
          (if params "role" = "" then "" else "ROLE=" ++ params "role" ++ ";")))

/-- C6 counterexample: a ParameterSet supplying account, user and a password
but no private key makes `get_connection_string` terminate the process
(`exit(1)`) instead of yielding a password-mode connection string. -/
theorem get_connection_string_password_counterexample :
    get_connection_string "/usr/lib/libsfodbc.so" "/tmp/perf_test_private_key.p8"
      (fun k => if k = "account" then "testacct"
        else if k = "user" then "testuser"
        else if k = "password" then "hunter2" else "") = ConnResult.exited 1 := by
  decide

/-- C6 amended: the performance harness's builder supports exactly one
authentication mode — key-pair JWT with the private key materialised to a
file.  If account, user or private key is missing (password or token
notwithstanding) the process exits with status 1; otherwise the produced
connection string selects `AUTHENTICATOR=SNOWFLAKE_JWT` with `PRIV_KEY_FILE`
pointing at the key file. -/
theorem get_connection_string_spec (driver_path key_file_path : String)
    (params : String → String) :
    (params "account" = "" ∨ params "user" = "" ∨ params "private_key" = "" →
      get_connection_string driver_path key_file_path params = ConnResult.exited 1) ∧
    (params "account" ≠ "" → params "user" ≠ "" → params "private_key" ≠ "" →
      ∃ tail : String,
        get_connection_string driver_path key_file_path params =
          ConnResult.ok
            ("DRIVER=" ++ driver_path ++ ";" ++ "SERVER=" ++ params "host" ++ ";" ++
              "ACCOUNT=" ++ params "account" ++ ";" ++ "UID=" ++ params "user" ++ ";" ++
              "AUTHENTICATOR=SNOWFLAKE_JWT;" ++ "PRIV_KEY_FILE=" ++ key_file_path ++ ";" ++
              tail)) := by
  constructor
  · intro h
    simp only [get_connection_string]
    rw [if_pos h]
  · intro h1 h2 h3
    refine ⟨(if params "database" = "" then "" else "DATABASE=" ++ params "database" ++ ";") ++
      (if params "schema" = "" then "" else "SCHEMA=" ++ params "schema" ++ ";") ++
      (if params "warehouse" = "" then "" else "WAREHOUSE=" ++ params "warehouse" ++ ";") ++
      (if params "role" = "" then "" else "ROLE=" ++ params "role" ++ ";"), ?_⟩
    simp only [get_connection_string]
    rw [if_neg (by tauto)]

/-- A ParameterSet with the key-pair credentials present. -/
def keyParams : String → String := fun k =>
  if k = "account" then "testacct"
  else if k = "user" then "testuser"
  else if k = "private_key" then "KEYDATA" else ""

/-- Witness for C6 (amended): with account, user and private key present the
builder emits a JWT-mode connection string. -/
theorem get_connection_string_spec_witness :
    ∃ tail : String,
      get_connection_string "/usr/lib/libsfodbc.so" "/tmp/perf_test_private_key.p8" keyParams =
        ConnResult.ok
          ("DRIVER=" ++ "/usr/lib/libsfodbc.so" ++ ";" ++ "SERVER=" ++ keyParams "host" ++ ";" ++
            "ACCOUNT=" ++ keyParams "account" ++ ";" ++ "UID=" ++ keyParams "user" ++ ";" ++
            "AUTHENTICATOR=SNOWFLAKE_JWT;" ++ "PRIV_KEY_FILE=" ++
            "/tmp/perf_test_private_key.p8" ++ ";" ++ tail) :=
  (get_connection_string_spec "/usr/lib/libsfodbc.so" "/tmp/perf_test_private_key.p8"
    keyParams).2 (by decide) (by decide) (by decide)

/-! ## GET target-directory preparation (`put_execution.cpp`)

The local filesystem is a set of existing paths (`FSet`).
`create_get_target_directory` upper-cases a copy of the command, treats it as
a GET when the upper-cased text starts with `GET` or contains `" GET "`
anywhere, extracts the first `file://<non-whitespace>+` match of the original
text, and wipes and recreates that directory.  `create_directories` is
modelled as creating the target path itself (the claims do not concern
ancestor directories). -/

def containsSub : List Char → List Char → Bool
  | [], needle => needle.isEmpty
  | c :: t, needle => needle.isPrefixOf (c :: t) || containsSub t needle

def isGetCommand (cmd : String) : Bool :=
  let upper := cmd.data.map Char.toUpper
  "GET".data.isPrefixOf upper || containsSub upper " GET ".data

/-- First match of the regex `file://([^\s]+)` : the capture after the first
`file://` occurrence that is followed by at least one non-whitespace
character. -/
def findFileUri : List Char → Option (List Char)
  | [] => none
  | c :: rest =>
      if "file://".data.isPrefixOf (c :: rest) then
        let tgt := ((c :: rest).drop 7).takeWhile (fun ch => !(isCSpace ch))
        if tgt.isEmpty then findFileUri rest else some tgt
      else findFileUri rest

def FSet : Type := String → Bool

/-- `p` lies in the subtree rooted at `dir` (including `dir` itself). -/
def isUnder (dir p : String) : Bool :=
  p == dir || (dir ++ "/").data.isPrefixOf p.data

def remove_all (fs : FSet) (target : String) : FSet :=
  fun p => if isUnder target p then false else fs p

def create_directories (fs : FSet) (target : String) : FSet :=
  fun p => if p = target then true else fs p

def create_get_target_directory (cmd : String) (fs : FSet) : FSet :=
  if isGetCommand cmd then
    match findFileUri cmd.data with
    | some tgt =>
        let target := String.mk tgt
        let fs1 := if fs target then remove_all fs target else fs
        create_directories fs1 target
    | none => fs
  else fs

/-- A PUT command whose text happens to contain `" GET "`. -/
def putGetCmd : String := "PUT file:///tmp/perfdata @stage1 GET extra"

/-- A filesystem holding the directory `/tmp/perfdata` and one stale file. -/
def fs0 : FSet := fun p => p == "/tmp/perfdata" || p == "/tmp/perfdata/old.csv"

/-- C9 counterexample: `putGetCmd` is a PUT command (its first word is
`PUT`), yet the preparation step does not leave the filesystem unchanged: the
`" GET "` substring triggers the GET heuristic and `/tmp/perfdata` — the
first `file://` URI, which is the PUT's source directory — is wiped. -/
theorem create_get_target_directory_put_counterexample :
    fs0 "/tmp/perfdata/old.csv" = true ∧
    (create_get_target_directory putGetCmd fs0) "/tmp/perfdata/old.csv" = false := by
  constructor
  · decide
  · decide

/-- C9 amended: a command matching the GET heuristic (upper-cased text starts
with `GET` or contains `" GET "`) with a `file://` URI has that directory
deleted (if present) and recreated empty — afterwards the target exists, no
path strictly below it exists, and everything outside its subtree is
untouched (given that the input filesystem is well-formed in that a missing
directory has no descendants).  Any other command — in particular a PUT whose
text does not contain `" GET "` — leaves the filesystem entirely
unchanged. -/
theorem create_get_target_directory_spec (cmd : String) (fs : FSet) :
    (isGetCommand cmd = false → create_get_target_directory cmd fs = fs) ∧
    (isGetCommand cmd = true → findFileUri cmd.data = none →
      create_get_target_directory cmd fs = fs) ∧
    (∀ tgt : List Char, isGetCommand cmd = true → findFileUri cmd.data = some tgt →
      (fs (String.mk tgt) = false →
        ∀ p, isUnder (String.mk tgt) p = true → p ≠ String.mk tgt → fs p = false) →
      ((create_get_target_directory cmd fs) (String.mk tgt) = true ∧
        (∀ p, isUnder (String.mk tgt) p = true → p ≠ String.mk tgt →
          (create_get_target_directory cmd fs) p = false) ∧
        (∀ p, isUnder (String.mk tgt) p = false →
          (create_get_target_directory cmd fs) p = fs p))) := by
  refine ⟨?_, ?_, ?_⟩
  · intro h
    simp [create_get_target_directory, h]
  · intro hg hn
    simp [create_get_target_directory, hg, hn]
  · intro tgt hg hf hwf
    have hcd : create_get_target_directory cmd fs =
        create_directories (if fs (String.mk tgt) then remove_all fs (String.mk tgt) else fs)
          (String.mk tgt) := by
      simp [create_get_target_directory, hg, hf]
    have hself : isUnder (String.mk tgt) (String.mk tgt) = true := by
      simp [isUnder]
    refine ⟨?_, ?_, ?_⟩
    · rw [hcd]
      simp [create_directories]
    · intro p hp hne
      rw [hcd]
      by_cases hex : fs (String.mk tgt) = true
      · simp [create_directories, remove_all, hne, hp, hex]
      · have hex' : fs (String.mk tgt) = false := by simpa using hex
        simp only [create_directories, hex', Bool.false_eq_true, if_false, if_neg hne]
        exact hwf hex' p hp hne
    · intro p hp
      have hne : p ≠ String.mk tgt := by
        rintro rfl
        rw [hself] at hp
        cases hp
      rw [hcd]
      by_cases hex : fs (String.mk tgt) = true
      · simp [create_directories, remove_all, hne, hp, hex]
      · have hex' : fs (String.mk tgt) = false := by simpa using hex
        simp [create_directories, hex', hne]

/-- A GET command downloading into `/tmp/target`. -/
def getCmd : String := "GET @stage1 file:///tmp/target x"

/-- A filesystem in which `/tmp/target` already holds a stale file. -/
def fsGet : FSet := fun p => p == "/tmp/target" || p == "/tmp/target/a.csv"

/-- Witness for C9 (amended): after preparing for `getCmd`, the target
directory exists and the stale file below it is gone. -/
theorem create_get_target_directory_spec_witness :
    (create_get_target_directory getCmd fsGet) "/tmp/target" = true ∧
    (create_get_target_directory getCmd fsGet) "/tmp/target/a.csv" = false :=
  have h := (create_get_target_directory_spec getCmd fsGet).2.2 "/tmp/target".data
    (by decide) (by decide) (fun hfalse => absurd hfalse (by decide))
  ⟨h.1, h.2.1 "/tmp/target/a.csv" (by decide) (by decide)⟩

end PerfHarness
